import Mathlib

/-!
# Verification of the crypto price monitor (weblazy/notify, src/main.go)

Shallow embedding of the monitor's core logic: multi-source price
aggregation, historical-price resolution, threshold / change-percent rule
evaluation, and the cooldown state machine.

Modelling conventions:
* Go `float64` prices are modelled as `ℚ` (the claims are about comparison
  and arithmetic structure, not binary rounding).
* Go maps are modelled as association lists (`mapInsert` / `mapLookup`)
  with last-write-wins update, matching Go map assignment and lookup.
* Network calls are modelled by passing each call's outcome in explicitly
  (an `Except String` value per endpoint); `fmt.Sscanf(s, "%f", &x)` is
  modelled by an abstract parser `pf : String → Option ℚ`, `%`-formatting
  by an abstract `fmtQ : ℚ → String`, and `time.Time` by integer seconds
  with abstract `timeFmt : Int → String` / `timeParse : String → Option Int`
  standing for `Format(RFC3339)` / `Parse(RFC3339)`.
* Where a function additionally has an observable effect (which sources a
  loop invoked, which divisions were performed, which cooldown keys were
  written), the embedding returns that trace alongside the source's actual
  result, so that frame and reachability claims can be stated.
-/

deriving instance DecidableEq for Except

namespace Notify

/-- Go `interface{}` JSON array element, as far as the code inspects it:
the code only ever does a `.(string)` type assertion on kline fields, so we
record only whether the field is a string (and which). A non-string field
makes the assertion fail. (Go would panic on an out-of-range kline index;
the embedding totalises those reads with a non-string default, which the
guarded code paths never exercise.) -/
inductive JVal where
  | str : String → JVal
  | other : JVal
  deriving DecidableEq

/-- One record of the Binance bulk-ticker response (`BinanceResponse`). -/
structure BinanceTicker where
  symbol : String
  price : String
  deriving DecidableEq

/-- One record of the Bybit bulk-ticker response list. -/
structure BybitTicker where
  symbol : String
  lastPrice : String
  deriving DecidableEq

/-- Bybit bulk-ticker response (`BybitResponse`). -/
structure BybitResp where
  retCode : Int
  retMsg : String
  list : List BybitTicker
  deriving DecidableEq

/-- Coinbase spot-price response (`CoinbaseResponse`), reduced to the one
field the code reads (`Data.Amount`). -/
structure CoinbaseResp where
  amount : String
  deriving DecidableEq

/-- One entry of the Kraken `Result` map (`c` = [price, volume]). -/
structure KrakenEntry where
  c : List String
  deriving DecidableEq

/-- Bybit kline response (`BybitKlineResponse`). -/
structure BybitKlineResp where
  retCode : Int
  retMsg : String
  list : List (List String)
  deriving DecidableEq

/-- A price snapshot: Go `map[string]float64`. -/
abbrev Snapshot := List (String × ℚ)

/-- Go map assignment `m[k] = v` (overwrite in place, insert at end). -/
def mapInsert {β : Type} : List (String × β) → String → β → List (String × β)
  | [], key, val => [(key, val)]
  | (k, v) :: rest, key, val =>
      if k = key then (key, val) :: rest else (k, v) :: mapInsert rest key val

/-- Go map lookup `v, ok := m[k]`. -/
def mapLookup {β : Type} : List (String × β) → String → Option β
  | [], _ => none
  | (k, v) :: rest, key => if k = key then some v else mapLookup rest key

theorem mapLookup_insert_self {β : Type} (m : List (String × β)) (k : String) (v : β) :
    mapLookup (mapInsert m k v) k = some v := by
  induction m with
  | nil => simp [mapInsert, mapLookup]
  | cons hd tl ih =>
      obtain ⟨k', v'⟩ := hd
      by_cases h : k' = k
      · simp [mapInsert, h, mapLookup]
      · simp [mapInsert, h, mapLookup, ih]

theorem mapLookup_insert_ne {β : Type} (m : List (String × β)) (k key : String) (v : β)
    (h : key ≠ k) : mapLookup (mapInsert m k v) key = mapLookup m key := by
  induction m with
  | nil =>
      simp only [mapInsert, mapLookup]
      rw [if_neg (fun hh => h hh.symm)]
  | cons hd tl ih =>
      obtain ⟨k', v'⟩ := hd
      by_cases hk : k' = k
      · subst hk
        have hins : mapInsert ((k', v') :: tl) k' v = (k', v) :: tl := by simp [mapInsert]
        rw [hins]
        simp only [mapLookup]
        rw [if_neg (fun hh => h hh.symm), if_neg (fun hh => h hh.symm)]
      · simp only [mapInsert, if_neg hk, mapLookup]
        by_cases hk2 : k' = key <;> simp [hk2, ih]

-- ===== Bulk price adapters (getPricesFromBinance / getPricesFromBybit) =====

/-- `getPricesFromBinance`: on transport error, fail; otherwise build the
snapshot, silently dropping every ticker whose price string fails the
`Sscanf("%f")` parse `pf`. -/
def getPricesFromBinance (pf : String → Option ℚ)
    (resp : Except String (List BinanceTicker)) : Except String Snapshot :=
  match resp with
  | Except.error e => Except.error ("请求失败: " ++ e)
  | Except.ok tickers =>
      Except.ok (tickers.foldl (fun prices ticker =>
        match pf ticker.price with
        | some price => mapInsert prices ticker.symbol price
        | none => prices) [])

/-- `getPricesFromBybit`: same shape as Binance over `result.Result.List`.
Note the source never checks `RetCode` here. -/
def getPricesFromBybit (pf : String → Option ℚ)
    (resp : Except String BybitResp) : Except String Snapshot :=
  match resp with
  | Except.error e => Except.error ("请求失败: " ++ e)
  | Except.ok result =>
      Except.ok (result.list.foldl (fun prices ticker =>
        match pf ticker.lastPrice with
        | some price => mapInsert prices ticker.symbol price
        | none => prices) [])

-- ===== Per-symbol adapters (getPricesFromCoinbase / getPricesFromKraken) =====

/-- `getPricesFromCoinbase`: one request per monitored symbol (the
`symbols` list fixes the — in Go unspecified — iteration order of the
collected symbol set); per-symbol failures are skipped; an empty result map
is an error. -/
def getPricesFromCoinbase (pf : String → Option ℚ) (symbols : List String)
    (fetch : String → Except String CoinbaseResp) : Except String Snapshot :=
  let prices := symbols.foldl (fun prices symbol =>
    match fetch symbol with
    | Except.error _ => prices
    | Except.ok result =>
        match pf result.amount with
        | some price => mapInsert prices (symbol ++ "USDT") price
        | none => prices) []
  if prices.isEmpty then Except.error "未获取到任何价格数据" else Except.ok prices

/-- The Kraken symbol table hard-coded in `getPricesFromKraken`. -/
def krakenSymbolMap (s : String) : Option String :=
  if s = "BTC" then some "XBTUSD"
  else if s = "ETH" then some "ETHUSD"
  else if s = "SOL" then some "SOLUSD"
  else none

/-- `getPricesFromKraken`: unmapped symbols are skipped; of the response's
`Result` map only the first iterated entry is used (the loop `break`s after
one iteration); an empty result map is an error. -/
def getPricesFromKraken (pf : String → Option ℚ) (symbols : List String)
    (fetch : String → Except String (List KrakenEntry)) : Except String Snapshot :=
  let prices := symbols.foldl (fun prices symbol =>
    match krakenSymbolMap symbol with
    | none => prices
    | some krakenSymbol =>
        match fetch krakenSymbol with
        | Except.error _ => prices
        | Except.ok entries =>
            match entries with
            | [] => prices
            | data :: _ =>
                if data.c.length > 0 then
                  match pf (data.c.headD "") with
                  | some price => mapInsert prices (symbol ++ "USDT") price
                  | none => prices
                else prices) []
  if prices.isEmpty then Except.error "未获取到任何价格数据" else Except.ok prices

-- ===== Aggregator (getAllPrices) =====

/-- Per-call network environment of one monitoring tick's price fetching. -/
structure FetchEnv where
  binanceTickers : Except String (List BinanceTicker)
  bybitResp : Except String BybitResp
  monitorSymbols : List String
  coinbaseFetch : String → Except String CoinbaseResp
  krakenFetch : String → Except String (List KrakenEntry)

/-- The aggregator's acceptance test: `err == nil && len(prices) > 0`. -/
def accepts : Except String Snapshot → Bool
  | Except.ok m => !m.isEmpty
  | Except.error _ => false

/-- The snapshot carried by a non-error adapter result. -/
def okSnap : Except String Snapshot → Option Snapshot
  | Except.ok m => some m
  | Except.error _ => none

/-- The fallback loop of `getAllPrices`, instrumented with the list of
sources actually invoked (second component). -/
def tryAllSources :
    List (String × Except String Snapshot) → (Option Snapshot × String) × List String
  | [] => ((none, ""), [])
  | (name, r) :: rest =>
      if accepts r then ((okSnap r, name), [name])
      else
        let res := tryAllSources rest
        (res.1, name :: res.2)

/-- The source list of `getAllPrices`, in its fixed priority order. -/
def cryptoSources (pf : String → Option ℚ) (env : FetchEnv) :
    List (String × Except String Snapshot) :=
  [("Binance", getPricesFromBinance pf env.binanceTickers),
   ("Bybit", getPricesFromBybit pf env.bybitResp),
   ("Coinbase", getPricesFromCoinbase pf env.monitorSymbols env.coinbaseFetch),
   ("Kraken", getPricesFromKraken pf env.monitorSymbols env.krakenFetch)]

/-- `getAllPrices`: first source whose result is error-free and non-empty;
`(nil, "")` when all fail. -/
def getAllPrices (pf : String → Option ℚ) (env : FetchEnv) : Option Snapshot × String :=
  (tryAllSources (cryptoSources pf env)).1

/-- The sources `getAllPrices` invoked, in order. -/
def getAllPricesTrace (pf : String → Option ℚ) (env : FetchEnv) : List String :=
  (tryAllSources (cryptoSources pf env)).2

/-- Total indexing into a source list (the aggregator's list has known
length, so the default is never read in the claims). -/
def srcGet (l : List (String × Except String Snapshot)) (i : Nat) :
    String × Except String Snapshot :=
  l.getD i ("", Except.error "")

-- ===== Kline fetching (historical prices) =====

/-- Kline endpoints of one tick: `binanceKlines symbol interval limit` is
the decoded body of
`BinanceKlineUrl?symbol=<symbol>&interval=<interval>&limit=<limit>`, and
`bybitKlines` likewise for the Bybit kline endpoint. -/
structure HistEnv where
  binanceKlines : String → String → Nat → Except String (List (List JVal))
  bybitKlines : String → String → Nat → Except String BybitKlineResp

/-- `getDailyOpenPriceFromBinance`: open (field index 1) of the single
requested daily candle. -/
def getDailyOpenPriceFromBinance (pf : String → Option ℚ) (env : HistEnv)
    (symbol : String) : Except String ℚ :=
  match env.binanceKlines symbol "1d" 1 with
  | Except.error e => Except.error ("获取日K线失败: " ++ e)
  | Except.ok klines =>
      if klines.length = 0 then Except.error "没有K线数据"
      else
        match (klines.headD []).getD 1 JVal.other with
        | JVal.str openPriceStr =>
            match pf openPriceStr with
            | some openPrice => Except.ok openPrice
            | none => Except.error "解析开盘价失败"
        | JVal.other => Except.error "开盘价格式错误"

/-- `getDailyOpenPriceFromBybit`: open (field index 1) of the single
requested daily candle; a non-zero `retCode` is an error. -/
def getDailyOpenPriceFromBybit (pf : String → Option ℚ) (env : HistEnv)
    (symbol : String) : Except String ℚ :=
  match env.bybitKlines symbol "D" 1 with
  | Except.error e => Except.error ("获取日K线失败: " ++ e)
  | Except.ok result =>
      if result.retCode ≠ 0 then Except.error ("API返回错误: " ++ result.retMsg)
      else if result.list.length = 0 then Except.error "没有K线数据"
      else
        match pf ((result.list.headD []).getD 1 "") with
        | some openPrice => Except.ok openPrice
        | none => Except.error "解析开盘价失败"

/-- `get15mAgoPriceFromBinance`: requires at least 2 candles and returns
the close (field index 4) of `klines[1]`, the candle at position 1 of the
response. -/
def get15mAgoPriceFromBinance (pf : String → Option ℚ) (env : HistEnv)
    (symbol : String) : Except String ℚ :=
  match env.binanceKlines symbol "15m" 2 with
  | Except.error e => Except.error ("获取15分钟K线失败: " ++ e)
  | Except.ok klines =>
      if klines.length < 2 then Except.error "K线数据不足"
      else
        match (klines.getD 1 []).getD 4 JVal.other with
        | JVal.str closePriceStr =>
            match pf closePriceStr with
            | some closePrice => Except.ok closePrice
            | none => Except.error "解析收盘价失败"
        | JVal.other => Except.error "收盘价格式错误"

/-- `get15mAgoPriceFromBybit`: requires at least 2 candles and returns the
close (field index 4) of `List[1]`, the candle at position 1 of the
response; a non-zero `retCode` is an error. -/
def get15mAgoPriceFromBybit (pf : String → Option ℚ) (env : HistEnv)
    (symbol : String) : Except String ℚ :=
  match env.bybitKlines symbol "15" 2 with
  | Except.error e => Except.error ("获取15分钟K线失败: " ++ e)
  | Except.ok result =>
      if result.retCode ≠ 0 then Except.error ("API返回错误: " ++ result.retMsg)
      else if result.list.length < 2 then Except.error "K线数据不足"
      else
        match pf ((result.list.getD 1 []).getD 4 "") with
        | some closePrice => Except.ok closePrice
        | none => Except.error "解析收盘价失败"

/-- `getHistoricalPriceFromBinance`: dispatch on the period. -/
def getHistoricalPriceFromBinance (pf : String → Option ℚ) (env : HistEnv)
    (symbol period : String) : Except String ℚ :=
  if period = "daily" then getDailyOpenPriceFromBinance pf env symbol
  else if period = "15m" then get15mAgoPriceFromBinance pf env symbol
  else Except.error ("未知的时间周期: " ++ period)

/-- `getHistoricalPriceFromBybit`: dispatch on the period. -/
def getHistoricalPriceFromBybit (pf : String → Option ℚ) (env : HistEnv)
    (symbol period : String) : Except String ℚ :=
  if period = "daily" then getDailyOpenPriceFromBybit pf env symbol
  else if period = "15m" then get15mAgoPriceFromBybit pf env symbol
  else Except.error ("未知的时间周期: " ++ period)

/-- The fallback loop inside `getHistoricalPrice`: first source whose
result is error-free with a price `> 0`; `none` when all sources fail that
test. -/
def histLoop (symbolKey period : String) :
    List (String → String → Except String ℚ) → Option ℚ
  | [] => none
  | fn :: rest =>
      match fn symbolKey period with
      | Except.ok price => if price > 0 then some price else histLoop symbolKey period rest
      | Except.error _ => histLoop symbolKey period rest

/-- The ordered source list of `getHistoricalPrice`: Binance then Bybit. -/
def histSources (pf : String → Option ℚ) (env : HistEnv) :
    List (String → String → Except String ℚ) :=
  [getHistoricalPriceFromBinance pf env, getHistoricalPriceFromBybit pf env]

/-- `getHistoricalPrice`: try Binance then Bybit on `symbol+"USDT"`,
accepting the first parsed price `> 0`; error when both fail. -/
def getHistoricalPrice (pf : String → Option ℚ) (env : HistEnv)
    (symbol period : String) : Except String ℚ :=
  match histLoop (symbol ++ "USDT") period (histSources pf env) with
  | some price => Except.ok price
  | none => Except.error ("所有数据源均无法获取 " ++ symbol ++ " " ++ period ++ " 历史价格")

-- ===== Rules and alert evaluation =====

/-- `PriceAlertRule` (the `ComparisonType` is the underlying Go string). -/
structure PriceAlertRule where
  Symbol : String
  Threshold : ℚ
  Comparison : String
  deriving DecidableEq

/-- `Below` comparison constant. -/
def Below : String := "<"

/-- `Above` comparison constant. -/
def Above : String := ">"

/-- `ChangeAlertRule`. -/
structure ChangeAlertRule where
  Symbol : String
  ChangePercent : ℚ
  Period : String
  deriving DecidableEq

/-- `AlertInfo`. -/
structure AlertInfo where
  Symbol : String
  AlertType : String
  CurrentPrice : ℚ
  Message : String
  deriving DecidableEq

/-- The `abs` helper of the source. -/
def abs (x : ℚ) : ℚ := if x < 0 then -x else x

/-- The period-label chain used when building change-alert messages. -/
def periodLabel (period : String) : String :=
  if period = "daily" then "当日"
  else if period = "15m" then "15分钟"
  else period

/-- One iteration of the `checkPriceAlerts` rule loop. -/
def priceAlertStep (fmtQ : ℚ → String) (prices : Snapshot)
    (triggered : List AlertInfo) (rule : PriceAlertRule) : List AlertInfo :=
  let symbolKey := rule.Symbol ++ "USDT"
  match mapLookup prices symbolKey with
  | none => triggered
  | some price =>
      let message :=
        if rule.Comparison = Below ∧ price < rule.Threshold then
          "跌破 $" ++ fmtQ rule.Threshold
        else if rule.Comparison = Above ∧ price > rule.Threshold then
          "突破 $" ++ fmtQ rule.Threshold
        else ""
      if message ≠ "" then
        triggered ++ [{ Symbol := rule.Symbol, AlertType := "price",
                        CurrentPrice := price, Message := message }]
      else triggered

/-- `checkPriceAlerts`: evaluate every threshold rule against the
snapshot. It takes no cooldown state of any kind. -/
def checkPriceAlerts (fmtQ : ℚ → String) (rules : List PriceAlertRule)
    (prices : Snapshot) : List AlertInfo :=
  rules.foldl (priceAlertStep fmtQ prices) []

/-- Accumulator of the `checkChangeAlerts` rule loop. `triggered` and
`state` mirror the source (return value and `priceHistory.lastAlertTime`);
`divisors` and `fired` are instrumentation recording, in order, each base
price the loop divided by and each alert key it wrote. -/
structure ChangeAcc where
  triggered : List AlertInfo
  state : List (String × String)
  divisors : List ℚ
  fired : List String
  deriving DecidableEq

/-- One iteration of the `checkChangeAlerts` rule loop. -/
def changeStep (pf : String → Option ℚ) (fmtQ : ℚ → String)
    (timeFmt : Int → String) (timeParse : String → Option Int) (env : HistEnv)
    (prices : Snapshot) (alertCooldown now : Int)
    (acc : ChangeAcc) (rule : ChangeAlertRule) : ChangeAcc :=
  let symbolKey := rule.Symbol ++ "USDT"
  match mapLookup prices symbolKey with
  | none => acc
  | some currentPrice =>
      match getHistoricalPrice pf env rule.Symbol rule.Period with
      | Except.error _ => acc
      | Except.ok basePrice =>
          let changePercent := (currentPrice - basePrice) / basePrice * 100
          let acc1 := { acc with divisors := acc.divisors ++ [basePrice] }
          if abs changePercent ≥ rule.ChangePercent then
            let alertKey := symbolKey ++ "_" ++ rule.Period
            let suppressed :=
              match mapLookup acc1.state alertKey with
              | some lastStr =>
                  match timeParse lastStr with
                  | some lastTime => decide (now - lastTime < alertCooldown)
                  | none => false
              | none => false
            if suppressed then acc1
            else
              let direction := if changePercent > 0 then "上涨" else "下跌"
              let message := periodLabel rule.Period ++ direction ++ " " ++
                fmtQ (abs changePercent) ++ "% (从 $" ++ fmtQ basePrice ++
                " 到 $" ++ fmtQ currentPrice ++ ")"
              { triggered := acc1.triggered ++
                  [{ Symbol := rule.Symbol, AlertType := "change",
                     CurrentPrice := currentPrice, Message := message }],
                state := mapInsert acc1.state alertKey (timeFmt now),
                divisors := acc1.divisors,
                fired := acc1.fired ++ [alertKey] }
          else acc1

/-- `checkChangeAlerts`: evaluate every change rule against the snapshot,
threading the per-key cooldown map (`priceHistory.lastAlertTime`) through
the loop; `now` is the single `time.Now()` taken at the top of the call. -/
def checkChangeAlerts (pf : String → Option ℚ) (fmtQ : ℚ → String)
    (timeFmt : Int → String) (timeParse : String → Option Int) (env : HistEnv)
    (rules : List ChangeAlertRule) (prices : Snapshot)
    (alertCooldown now : Int) (state0 : List (String × String)) : ChangeAcc :=
  rules.foldl (changeStep pf fmtQ timeFmt timeParse env prices alertCooldown now)
    { triggered := [], state := state0, divisors := [], fired := [] }

-- ===== One iteration of the monitoring loop (monitorCryptoPrices) =====

/-- The rule lists of the loaded configuration. -/
structure MonitorConfig where
  priceAlertRules : List PriceAlertRule
  changeAlertRules : List ChangeAlertRule

/-- Observable outcome of one tick of `monitorCryptoPrices`: the two
triggered lists, whether `sendAlerts` was invoked for each batch, and the
cooldown state (`lastAlertTime` local + `priceHistory.lastAlertTime` map)
after the tick. -/
structure TickResult where
  priceTriggered : List AlertInfo
  changeTriggered : List AlertInfo
  priceSent : Bool
  changeSent : Bool
  lastAlertTime : Int
  changeState : List (String × String)
  deriving DecidableEq

/-- One iteration of the `for range ticker.C` body of
`monitorCryptoPrices`. `sendPriceOk` / `sendChangeOk` are the outcomes of
the two possible `sendAlerts` POSTs (`true` = nil error); the tick's
`time.Now()` calls are collapsed to the single instant `now`. -/
def monitorTick (pf : String → Option ℚ) (fmtQ : ℚ → String)
    (timeFmt : Int → String) (timeParse : String → Option Int)
    (cfg : MonitorConfig) (fenv : FetchEnv) (henv : HistEnv)
    (sendPriceOk sendChangeOk : Bool) (alertCooldown now lastAlertTime : Int)
    (changeState : List (String × String)) : TickResult :=
  match (getAllPrices pf fenv).1 with
  | none =>
      { priceTriggered := [], changeTriggered := [], priceSent := false,
        changeSent := false, lastAlertTime := lastAlertTime, changeState := changeState }
  | some prices =>
      let priceAlerts := checkPriceAlerts fmtQ cfg.priceAlertRules prices
      let chAcc := checkChangeAlerts pf fmtQ timeFmt timeParse henv
        cfg.changeAlertRules prices alertCooldown now changeState
      let priceSent := !priceAlerts.isEmpty && decide (now - lastAlertTime > alertCooldown)
      let lastAlertTime' := if priceSent && sendPriceOk then now else lastAlertTime
      let changeSent := !chAcc.triggered.isEmpty
      { priceTriggered := priceAlerts, changeTriggered := chAcc.triggered,
        priceSent := priceSent, changeSent := changeSent,
        lastAlertTime := lastAlertTime', changeState := chAcc.state }

-- ===== Concrete sample data used to exercise the development =====

/-- A finite price-string parser standing in for `fmt.Sscanf("%f")` on
the handful of literals the sample data uses; everything else fails. -/
def wParse (s : String) : Option ℚ :=
  if s = "65000" then some 65000
  else if s = "95" then some 95
  else if s = "99" then some 99
  else if s = "100" then some 100
  else none

/-- A stand-in `%.2f` formatter (its output is never branched on). -/
def wFmtQ (_ : ℚ) : String := "n"

/-- A finite RFC3339-style time formatter for the sample instants. -/
def wTimeFmt (t : Int) : String :=
  if t = 1000 then "T1000" else "T"

/-- The matching finite time parser. -/
def wTimeParse (s : String) : Option Int :=
  if s = "T0" then some 0
  else if s = "T999" then some 999
  else if s = "T1000" then some 1000
  else none

/-- Binance bulk tickers: one parseable record, one with an unparseable
price string. -/
def sampleTickers : List BinanceTicker :=
  [{ symbol := "BTCUSDT", price := "65000" }, { symbol := "ETHUSDT", price := "abc" }]

/-- A Bybit bulk response with one parseable and one unparseable record. -/
def sampleBybitResp : BybitResp :=
  { retCode := 0, retMsg := "",
    list := [{ symbol := "BTCUSDT", lastPrice := "65000" },
             { symbol := "ETHUSDT", lastPrice := "abc" }] }

/-- A Bybit bulk response with a single parseable BTC record. -/
def wBybitOkResp : BybitResp :=
  { retCode := 0, retMsg := "",
    list := [{ symbol := "BTCUSDT", lastPrice := "65000" }] }

/-- A fetch environment where Binance fails and Bybit succeeds. -/
def wFetchEnv : FetchEnv :=
  { binanceTickers := Except.error "network",
    bybitResp := Except.ok wBybitOkResp,
    monitorSymbols := [],
    coinbaseFetch := fun _ => Except.error "x",
    krakenFetch := fun _ => Except.error "x" }

/-- Two 15m candles in Binance's forward-chronological order (oldest
first): the older candle closed at 95, the most recent one at 99; so the
most recent close is 99 and the second-most-recent close is 95. Fields
follow `[openTime, open, high, low, close, volume]`. -/
def fwdKlines : List (List JVal) :=
  [[JVal.other, JVal.str "100", JVal.other, JVal.other, JVal.str "95", JVal.other],
   [JVal.other, JVal.str "95", JVal.other, JVal.other, JVal.str "99", JVal.other]]

/-- A single forward-chronological candle (close 95). -/
def oneKline : List (List JVal) :=
  [[JVal.other, JVal.str "100", JVal.other, JVal.other, JVal.str "95", JVal.other]]

/-- The same two candles in Bybit's reverse-chronological order (newest
first): `list[0]` is the most recent candle (close 99), `list[1]` the
second-most-recent (close 95). -/
def revKlineResp : BybitKlineResp :=
  { retCode := 0, retMsg := "",
    list := [["t", "95", "h", "l", "99", "v", "t"],
             ["t", "100", "h", "l", "95", "v", "t"]] }

/-- A Bybit kline response holding a single candle. -/
def oneBybitKlineResp : BybitKlineResp :=
  { retCode := 0, retMsg := "", list := [["t", "95", "h", "l", "99", "v", "t"]] }

/-- Kline environment serving the forward-chronological Binance candles
(Bybit unavailable). -/
def fwdEnv : HistEnv :=
  { binanceKlines := fun _ _ _ => Except.ok fwdKlines,
    bybitKlines := fun _ _ _ => Except.error "x" }

/-- Kline environment serving a single Binance candle and a single Bybit
candle. -/
def oneCandleEnv : HistEnv :=
  { binanceKlines := fun _ _ _ => Except.ok oneKline,
    bybitKlines := fun _ _ _ => Except.ok oneBybitKlineResp }

/-- Kline environment where Binance fails and Bybit serves the
reverse-chronological candles. -/
def revEnv : HistEnv :=
  { binanceKlines := fun _ _ _ => Except.error "x",
    bybitKlines := fun _ _ _ => Except.ok revKlineResp }

/-- Kline environment where both sources fail. -/
def emptyHistEnv : HistEnv :=
  { binanceKlines := fun _ _ _ => Except.error "x",
    bybitKlines := fun _ _ _ => Except.error "x" }

/-- Sample change rule: BTC, 5% threshold, 15-minute period. -/
def wRule : ChangeAlertRule := { Symbol := "BTC", ChangePercent := 5, Period := "15m" }

/-- Sample threshold rule: BTC below $70000. -/
def wPriceRule : PriceAlertRule := { Symbol := "BTC", Threshold := 70000, Comparison := "<" }

/-- Configuration with just the sample threshold rule. -/
def wCfgPrice : MonitorConfig := { priceAlertRules := [wPriceRule], changeAlertRules := [] }

/-- Configuration with just the sample change rule. -/
def wCfgChange : MonitorConfig := { priceAlertRules := [], changeAlertRules := [wRule] }

/-- The alert record the firing branch of `changeStep` constructs, as a
function of the rule, current price and base price (an abbreviation for
stating theorems; `changeStep` builds the identical record inline, like
the source). -/
def changeAlertOf (fmtQ : ℚ → String) (rule : ChangeAlertRule) (cp bp : ℚ) : AlertInfo :=
  { Symbol := rule.Symbol, AlertType := "change", CurrentPrice := cp,
    Message := periodLabel rule.Period ++
      (if (cp - bp) / bp * 100 > 0 then "上涨" else "下跌") ++ " " ++
      fmtQ (abs ((cp - bp) / bp * 100)) ++ "% (从 $" ++ fmtQ bp ++
      " 到 $" ++ fmtQ cp ++ ")" }

/-- The concrete alert produced by the sample change rule at current
price 110 and base price 99 under the sample formatter. -/
def wAlert110 : AlertInfo :=
  { Symbol := "BTC", AlertType := "change", CurrentPrice := 110,
    Message := "15分钟上涨 n% (从 $n 到 $n)" }

/-- The full accumulator `checkChangeAlerts` produces on the sample
change-alert run that starts from a state holding only an unrelated key. -/
def wChangeAccOut : ChangeAcc :=
  { triggered := [wAlert110],
    state := [("ETHUSDT_daily", "T0"), ("BTCUSDT_15m", "T1000")],
    divisors := [99], fired := ["BTCUSDT_15m"] }

-- ===== Theorems =====

theorem tryAllSources_success (l : List (String × Except String Snapshot)) :
    ∀ i, i < l.length → (∀ j, j < i → accepts (srcGet l j).2 = false) →
    accepts (srcGet l i).2 = true →
    tryAllSources l = ((okSnap (srcGet l i).2, (srcGet l i).1), (l.map Prod.fst).take (i + 1)) := by
  induction l with
  | nil => intro i hi; simp at hi
  | cons hd tl ih =>
      intro i hi hprev hacc
      obtain ⟨name, r⟩ := hd
      cases i with
      | zero =>
          simp only [srcGet, List.getD_cons_zero] at hacc
          simp [tryAllSources, hacc, srcGet]
      | succ i' =>
          have h0 : accepts r = false := by
            simpa [srcGet] using hprev 0 (Nat.succ_pos _)
          have hlen : i' < tl.length := by simpa using hi
          have hprev' : ∀ j, j < i' → accepts (srcGet tl j).2 = false := by
            intro j hj
            simpa [srcGet] using hprev (j + 1) (by omega)
          have hacc' : accepts (srcGet tl i').2 = true := by
            simpa [srcGet] using hacc
          have hres := ih i' hlen hprev' hacc'
          simp [tryAllSources, h0, srcGet, hres]

theorem tryAllSources_fail (l : List (String × Except String Snapshot))
    (h : ∀ j, j < l.length → accepts (srcGet l j).2 = false) :
    tryAllSources l = ((none, ""), l.map Prod.fst) := by
  induction l with
  | nil => simp [tryAllSources]
  | cons hd tl ih =>
      obtain ⟨name, r⟩ := hd
      have h0 : accepts r = false := by
        simpa [srcGet] using h 0 (Nat.succ_pos _)
      have h' : ∀ j, j < tl.length → accepts (srcGet tl j).2 = false := by
        intro j hj
        simpa [srcGet] using h (j + 1) (by simpa using hj)
      simp [tryAllSources, h0, ih h']

/-- **C1.** `getAllPrices` tries Binance, Bybit, Coinbase, Kraken in that
fixed order and returns the snapshot and name of the first source whose
result is error-free and non-empty; the invocation trace shows no later
source is invoked; if every source fails the test it returns `(none, "")`
(nil snapshot, empty source name) after invoking all four. -/
theorem getAllPrices_ordered_fallback (pf : String → Option ℚ) (env : FetchEnv) :
    (∀ i, i < 4 →
      (∀ j, j < i → accepts (srcGet (cryptoSources pf env) j).2 = false) →
      accepts (srcGet (cryptoSources pf env) i).2 = true →
      getAllPrices pf env =
        (okSnap (srcGet (cryptoSources pf env) i).2, (srcGet (cryptoSources pf env) i).1) ∧
      getAllPricesTrace pf env = ["Binance", "Bybit", "Coinbase", "Kraken"].take (i + 1)) ∧
    ((∀ j, j < 4 → accepts (srcGet (cryptoSources pf env) j).2 = false) →
      getAllPrices pf env = (none, "") ∧
      getAllPricesTrace pf env = ["Binance", "Bybit", "Coinbase", "Kraken"]) := by
  constructor
  · intro i hi hprev hacc
    have hlen : i < (cryptoSources pf env).length := by
      simpa [cryptoSources] using hi
    have h := tryAllSources_success (cryptoSources pf env) i hlen hprev hacc
    constructor
    · simp only [getAllPrices, h]
    · simp only [getAllPricesTrace, h]
      rfl
  · intro hall
    have h := tryAllSources_fail (cryptoSources pf env) (by
      intro j hj
      exact hall j (by simpa [cryptoSources] using hj))
    constructor
    · simp only [getAllPrices, h]
    · simp only [getAllPricesTrace, h]
      rfl

/-- Witness for C1: with Binance failing and Bybit succeeding with a
non-empty snapshot, the aggregator returns Bybit's snapshot and name and
invokes only Binance then Bybit. -/
theorem getAllPrices_ordered_fallback_witness :
    getAllPrices wParse wFetchEnv = (some [("BTCUSDT", (65000 : ℚ))], "Bybit") ∧
    getAllPricesTrace wParse wFetchEnv = ["Binance", "Bybit"] := by
  have h := (getAllPrices_ordered_fallback wParse wFetchEnv).1 1 (by decide)
    (by decide) (by decide)
  exact ⟨h.1.trans (by decide), h.2.trans (by decide)⟩

theorem mapLookup_foldl_parse {α : Type} (pf : String → Option ℚ)
    (sym pr : α → String) (ts : List α) (init : Snapshot) (s : String) :
    (mapLookup (ts.foldl (fun prices t =>
        match pf (pr t) with
        | some price => mapInsert prices (sym t) price
        | none => prices) init) s).isSome =
      ((mapLookup init s).isSome || ts.any fun t => sym t == s && (pf (pr t)).isSome) := by
  induction ts generalizing init with
  | nil => simp
  | cons t ts ih =>
      simp only [List.foldl_cons, List.any_cons, ih]
      cases hp : pf (pr t) with
      | none => simp [hp]
      | some price =>
          by_cases hs : s = sym t
          · subst hs
            simp [hp, mapLookup_insert_self]
          · have : (sym t == s) = false := by
              simp [beq_iff_eq]
              exact fun hh => hs hh.symm
            simp [hp, mapLookup_insert_ne init (sym t) s price hs, this]

/-- **C9.** For the two bulk adapters, given any decoded response, the
adapter never returns an error and, in the snapshot it returns, a symbol
is present exactly when some ticker record carries that symbol with a
price string that parses; in particular every record whose price fails to
parse is dropped without affecting the rest. -/
theorem bulk_adapters_drop_unparsed (pf : String → Option ℚ)
    (ts : List BinanceTicker) (resp : BybitResp) (s : String) :
    ((getPricesFromBinance pf (Except.ok ts)).isOk = true ∧
      ∀ m, getPricesFromBinance pf (Except.ok ts) = Except.ok m →
        (mapLookup m s).isSome = ts.any fun t => t.symbol == s && (pf t.price).isSome) ∧
    ((getPricesFromBybit pf (Except.ok resp)).isOk = true ∧
      ∀ m, getPricesFromBybit pf (Except.ok resp) = Except.ok m →
        (mapLookup m s).isSome =
          resp.list.any fun t => t.symbol == s && (pf t.lastPrice).isSome) := by
  constructor
  · constructor
    · rfl
    · intro m hm
      have hm' : ts.foldl (fun prices ticker =>
          match pf ticker.price with
          | some price => mapInsert prices ticker.symbol price
          | none => prices) [] = m := by
        simpa [getPricesFromBinance] using hm
      rw [← hm']
      simpa using
        mapLookup_foldl_parse pf (fun t => t.symbol) (fun t => t.price) ts [] s
  · constructor
    · rfl
    · intro m hm
      have hm' : resp.list.foldl (fun prices ticker =>
          match pf ticker.lastPrice with
          | some price => mapInsert prices ticker.symbol price
          | none => prices) [] = m := by
        simpa [getPricesFromBybit] using hm
      rw [← hm']
      simpa using
        mapLookup_foldl_parse pf (fun t => t.symbol) (fun t => t.lastPrice) resp.list [] s

/-- Witness for C9: on a Binance response with one parseable and one
unparseable record, the adapter returns `ok`, keeps the parsed symbol and
drops the unparsed one; likewise for Bybit. -/
theorem bulk_adapters_drop_unparsed_witness :
    (getPricesFromBinance wParse (Except.ok sampleTickers)).isOk = true ∧
    (mapLookup [("BTCUSDT", (65000 : ℚ))] ("ETHUSDT")).isSome =
      (sampleTickers.any fun t => t.symbol == "ETHUSDT" && (wParse t.price).isSome) ∧
    (mapLookup [("BTCUSDT", (65000 : ℚ))] ("BTCUSDT")).isSome =
      (sampleBybitResp.list.any fun t => t.symbol == "BTCUSDT" && (wParse t.lastPrice).isSome) := by
  have hb := bulk_adapters_drop_unparsed wParse sampleTickers sampleBybitResp ("ETHUSDT")
  have hy := bulk_adapters_drop_unparsed wParse sampleTickers sampleBybitResp ("BTCUSDT")
  exact ⟨hb.1.1, hb.1.2 [("BTCUSDT", 65000)] (by decide),
    hy.2.2 [("BTCUSDT", 65000)] (by decide)⟩

/-- **C2** (refuted on the Binance path — code bug). The claim: both 15m
functions error on fewer than 2 candles, and with at least 2 return the
close of the second-most-recent candle, never the close of the most
recent one. On the forward-chronological Binance response `fwdKlines`
(older candle closes at 95, most recent at 99 — Binance serves klines
oldest-first) `get15mAgoPriceFromBinance` returns 99, the close of the
most recent candle, not the second-most-recent close 95; its own comment
says the picked candle is the one from 15 minutes ago. The Bybit path on
the reverse-chronological `revKlineResp` (most recent first, closes
[99, 95]) correctly returns the second-most-recent close 95, and both
paths error on a single candle. -/
theorem get15m_candle_selection_bug :
    get15mAgoPriceFromBinance wParse fwdEnv ("BTCUSDT") = Except.ok 99 ∧
    get15mAgoPriceFromBinance wParse fwdEnv ("BTCUSDT") ≠ Except.ok 95 ∧
    get15mAgoPriceFromBinance wParse oneCandleEnv ("BTCUSDT") = Except.error "K线数据不足" ∧
    get15mAgoPriceFromBybit wParse revEnv ("BTCUSDT") = Except.ok 95 ∧
    get15mAgoPriceFromBybit wParse oneCandleEnv ("BTCUSDT") = Except.error "K线数据不足" := by
  decide

theorem append_ne_empty_left (s t : String) (h : s.length ≠ 0) : s ++ t ≠ "" := by
  intro hh
  have hlen := congrArg String.length hh
  rw [String.length_append] at hlen
  simp at hlen
  exact h hlen.1

/-- **C4.** For a threshold rule, `checkPriceAlerts` looks up
`Symbol+"USDT"`; an absent key emits nothing; a present price emits an
alert exactly when the comparison is `<` with price strictly below the
threshold, or `>` with price strictly above it; a price equal to the
threshold never fires in either direction. -/
theorem priceAlert_strict_comparisons (fmtQ : ℚ → String) (prices : Snapshot)
    (rule : PriceAlertRule) :
    (mapLookup prices (rule.Symbol ++ "USDT") = none →
      checkPriceAlerts fmtQ [rule] prices = []) ∧
    (∀ p, mapLookup prices (rule.Symbol ++ "USDT") = some p →
      checkPriceAlerts fmtQ [rule] prices =
        if rule.Comparison = Below ∧ p < rule.Threshold then
          [{ Symbol := rule.Symbol, AlertType := "price", CurrentPrice := p,
             Message := "跌破 $" ++ fmtQ rule.Threshold }]
        else if rule.Comparison = Above ∧ p > rule.Threshold then
          [{ Symbol := rule.Symbol, AlertType := "price", CurrentPrice := p,
             Message := "突破 $" ++ fmtQ rule.Threshold }]
        else []) ∧
    (∀ p, mapLookup prices (rule.Symbol ++ "USDT") = some p → p = rule.Threshold →
      checkPriceAlerts fmtQ [rule] prices = []) := by
  refine ⟨?_, ?_, ?_⟩
  · intro h
    simp [checkPriceAlerts, priceAlertStep, h]
  · intro p hp
    simp only [checkPriceAlerts, List.foldl, priceAlertStep, hp]
    by_cases h1 : rule.Comparison = Below ∧ p < rule.Threshold
    · have hne : ("跌破 $" ++ fmtQ rule.Threshold) ≠ "" :=
        append_ne_empty_left _ _ (by decide)

      simp [h1, hne]
    · by_cases h2 : rule.Comparison = Above ∧ p > rule.Threshold
      · have hne : ("突破 $" ++ fmtQ rule.Threshold) ≠ "" :=
          append_ne_empty_left _ _ (by decide)
        simp [h1, h2, hne, Above, Below]
      · simp [h1, h2]
  · intro p hp hthr
    subst hthr
    simp [checkPriceAlerts, priceAlertStep, hp, lt_irrefl]

/-- Witness for C4: BTC-below-$70000 fires at price 59000 with the crossed
message and does not fire at exactly 70000. -/
theorem priceAlert_strict_comparisons_witness :
    checkPriceAlerts wFmtQ [wPriceRule] [("BTCUSDT", (59000 : ℚ))] =
      [{ Symbol := "BTC", AlertType := "price", CurrentPrice := 59000,
         Message := "跌破 $n" }] ∧
    checkPriceAlerts wFmtQ [wPriceRule] [("BTCUSDT", (70000 : ℚ))] = [] := by
  have h1 := (priceAlert_strict_comparisons wFmtQ [("BTCUSDT", (59000 : ℚ))]
    wPriceRule).2.1 59000 (by decide)
  have h2 := (priceAlert_strict_comparisons wFmtQ [("BTCUSDT", (70000 : ℚ))]
    wPriceRule).2.2 70000 (by decide) (by decide)
  exact ⟨h1.trans (by decide), h2⟩

theorem histLoop_pos (fns : List (String → String → Except String ℚ)) :
    ∀ symbolKey period p, histLoop symbolKey period fns = some p → 0 < p := by
  induction fns with
  | nil => intro sk per p h; simp [histLoop] at h
  | cons fn rest ih =>
      intro sk per p h
      simp only [histLoop] at h
      cases hfn : fn sk per with
      | error e =>
          simp only [hfn] at h
          exact ih sk per p h
      | ok q =>
          simp only [hfn] at h
          by_cases hq : q > 0
          · rw [if_pos hq] at h
            obtain rfl : q = p := by injection h
            exact hq
          · rw [if_neg hq] at h
            exact ih sk per p h

theorem getHistoricalPrice_pos (pf : String → Option ℚ) (env : HistEnv)
    (symbol period : String) (p : ℚ)
    (h : getHistoricalPrice pf env symbol period = Except.ok p) : 0 < p := by
  unfold getHistoricalPrice at h
  cases hl : histLoop (symbol ++ "USDT") period (histSources pf env) with
  | none => simp [hl] at h
  | some q =>
      simp only [hl] at h
      obtain rfl : q = p := by injection h
      exact histLoop_pos (histSources pf env) (symbol ++ "USDT") period q hl

theorem changeStep_divisors (pf : String → Option ℚ) (fmtQ : ℚ → String)
    (timeFmt : Int → String) (timeParse : String → Option Int) (env : HistEnv)
    (prices : Snapshot) (cd now : Int) (acc : ChangeAcc) (rule : ChangeAlertRule) :
    (changeStep pf fmtQ timeFmt timeParse env prices cd now acc rule).divisors =
        acc.divisors ∨
      ∃ bp, getHistoricalPrice pf env rule.Symbol rule.Period = Except.ok bp ∧
        (changeStep pf fmtQ timeFmt timeParse env prices cd now acc rule).divisors =
          acc.divisors ++ [bp] := by
  rcases hcp : mapLookup prices (rule.Symbol ++ "USDT") with _ | cp
  · left
    simp [changeStep, hcp]
  · rcases hhist : getHistoricalPrice pf env rule.Symbol rule.Period with e | bp
    · left
      simp [changeStep, hcp, hhist]
    · right
      refine ⟨bp, rfl, ?_⟩
      simp only [changeStep, hcp, hhist]
      split
      · split
        · rfl
        · rfl
      · rfl

theorem changeFold_divisors_pos (pf : String → Option ℚ) (fmtQ : ℚ → String)
    (timeFmt : Int → String) (timeParse : String → Option Int) (env : HistEnv)
    (prices : Snapshot) (cd now : Int) (rules : List ChangeAlertRule) :
    ∀ acc : ChangeAcc, (∀ d ∈ acc.divisors, 0 < d) →
      ∀ d ∈ (List.foldl (changeStep pf fmtQ timeFmt timeParse env prices cd now)
        acc rules).divisors, 0 < d := by
  induction rules with
  | nil => intro acc hacc; simpa using hacc
  | cons r rs ih =>
      intro acc hacc
      simp only [List.foldl_cons]
      apply ih
      intro d hd
      rcases changeStep_divisors pf fmtQ timeFmt timeParse env prices cd now acc r with
        h | ⟨bp, hb, h⟩
      · rw [h] at hd
        exact hacc d hd
      · rw [h] at hd
        rcases List.mem_append.1 hd with h1 | h1
        · exact hacc d h1
        · obtain rfl : d = bp := by simpa using h1
          exact getHistoricalPrice_pos pf env r.Symbol r.Period d hb

theorem wChangeEval :
    checkChangeAlerts wParse wFmtQ wTimeFmt wTimeParse fwdEnv [wRule]
      [("BTCUSDT", (110 : ℚ))] 300 1000 [("ETHUSDT_daily", "T0")] = wChangeAccOut := by
  have hl : mapLookup [("BTCUSDT", (110 : ℚ))] ("BTC" ++ "USDT") = some 110 := by decide
  have hb : getHistoricalPrice wParse fwdEnv ("BTC") ("15m") = Except.ok 99 := by decide
  have hcond : abs ((110 - 99) / 99 * 100 : ℚ) ≥ (5 : ℚ) := by norm_num [abs]
  have hdir : ((110 - 99) / 99 * 100 : ℚ) > 0 := by norm_num
  have hsup : mapLookup [("ETHUSDT_daily", "T0")] ("BTC" ++ "USDT" ++ "_" ++ "15m") = none := by
    decide
  simp only [checkChangeAlerts, List.foldl, changeStep, wRule, hl, hb, hsup, hcond, hdir,
    if_pos, if_true]
  simp [wFmtQ, periodLabel, mapInsert, wTimeFmt, wChangeAccOut, wAlert110]

/-- **C5.** `getHistoricalPrice` succeeds only with a strictly positive
price, and every base price `checkChangeAlerts` ever divides by (the
`divisors` trace) is strictly positive, so the change-percent division by
zero is unreachable: on any resolver error the rule is skipped. -/
theorem change_base_price_positive (pf : String → Option ℚ) (fmtQ : ℚ → String)
    (timeFmt : Int → String) (timeParse : String → Option Int) (env : HistEnv)
    (symbol period : String) (rules : List ChangeAlertRule) (prices : Snapshot)
    (cd now : Int) (st : List (String × String)) :
    (∀ p, getHistoricalPrice pf env symbol period = Except.ok p → 0 < p) ∧
    (∀ d ∈ (checkChangeAlerts pf fmtQ timeFmt timeParse env rules prices cd now st).divisors,
      0 < d) := by
  constructor
  · intro p h
    exact getHistoricalPrice_pos pf env symbol period p h
  · intro d hd
    exact changeFold_divisors_pos pf fmtQ timeFmt timeParse env prices cd now rules
      { triggered := [], state := st, divisors := [], fired := [] } (by simp) d hd

/-- Witness for C5: the sample resolver run returns 99 (> 0), 99 is the
recorded divisor of the sample change-alert run, and the theorem yields
its positivity. -/
theorem change_base_price_positive_witness :
    getHistoricalPrice wParse fwdEnv ("BTC") ("15m") = Except.ok 99 ∧
    (99 : ℚ) ∈ (checkChangeAlerts wParse wFmtQ wTimeFmt wTimeParse fwdEnv [wRule]
      [("BTCUSDT", (110 : ℚ))] 300 1000 [("ETHUSDT_daily", "T0")]).divisors ∧
    (0 : ℚ) < 99 := by
  have h := change_base_price_positive wParse wFmtQ wTimeFmt wTimeParse fwdEnv
    ("BTC") ("15m") [wRule] [("BTCUSDT", (110 : ℚ))] 300 1000 [("ETHUSDT_daily", "T0")]
  refine ⟨by decide, ?_, h.1 99 (by decide)⟩
  rw [wChangeEval]
  decide

/-- **C3.** For a change rule whose symbol is in the snapshot and whose
base price resolves, `checkChangeAlerts` computes
`changePercent = (current - base) / base * 100` and fires exactly when
`abs changePercent ≥ rule.ChangePercent` (the boundary fires); the sign
only selects the displayed direction. Stated with no prior cooldown entry
so that firing is observable as an emitted alert; the division trace shows
the single division by the base price. -/
theorem changeAlert_threshold_inclusive (pf : String → Option ℚ) (fmtQ : ℚ → String)
    (timeFmt : Int → String) (timeParse : String → Option Int) (env : HistEnv)
    (prices : Snapshot) (cd now : Int) (st : List (String × String))
    (rule : ChangeAlertRule) (cp bp : ℚ)
    (hcp : mapLookup prices (rule.Symbol ++ "USDT") = some cp)
    (hbp : getHistoricalPrice pf env rule.Symbol rule.Period = Except.ok bp)
    (hno : mapLookup st (rule.Symbol ++ "USDT" ++ "_" ++ rule.Period) = none) :
    (checkChangeAlerts pf fmtQ timeFmt timeParse env [rule] prices cd now st).triggered =
      (if abs ((cp - bp) / bp * 100) ≥ rule.ChangePercent then
        [changeAlertOf fmtQ rule cp bp] else []) ∧
    (checkChangeAlerts pf fmtQ timeFmt timeParse env [rule] prices cd now st).divisors =
      [bp] := by
  constructor
  · by_cases hc : abs ((cp - bp) / bp * 100) ≥ rule.ChangePercent
    · simp only [checkChangeAlerts, List.foldl, changeStep, hcp, hbp, hno]
      simp [hc, changeAlertOf]
    · simp only [checkChangeAlerts, List.foldl, changeStep, hcp, hbp]
      simp [hc]
  · by_cases hc : abs ((cp - bp) / bp * 100) ≥ rule.ChangePercent
    · simp only [checkChangeAlerts, List.foldl, changeStep, hcp, hbp, hno]
      simp [hc]
    · simp only [checkChangeAlerts, List.foldl, changeStep, hcp, hbp]
      simp [hc]

/-- Witness for C3: at current 110 over base 99 (change 100/9 % ≥ 5) the
sample rule fires with the "up" direction; the divisor trace is `[99]`. -/
theorem changeAlert_threshold_inclusive_witness :
    (checkChangeAlerts wParse wFmtQ wTimeFmt wTimeParse fwdEnv [wRule]
      [("BTCUSDT", (110 : ℚ))] 300 1000 []).triggered = [wAlert110] ∧
    (checkChangeAlerts wParse wFmtQ wTimeFmt wTimeParse fwdEnv [wRule]
      [("BTCUSDT", (110 : ℚ))] 300 1000 []).divisors = [99] := by
  have h := changeAlert_threshold_inclusive wParse wFmtQ wTimeFmt wTimeParse fwdEnv
    [("BTCUSDT", (110 : ℚ))] 300 1000 [] wRule 110 99 (by decide) (by decide) (by decide)
  refine ⟨h.1.trans ?_, h.2⟩
  have hcond : abs (((110 : ℚ) - 99) / 99 * 100) ≥ wRule.ChangePercent := by
    norm_num [abs, wRule]
  rw [if_pos hcond]
  norm_num [changeAlertOf, wAlert110, wFmtQ, periodLabel, wRule]
  decide

/-- **C6.** For a triggering change rule: if the cooldown map holds an
entry for `symbol+"USDT"+"_"+period` whose recorded time is younger than
the cooldown window, `checkChangeAlerts` emits nothing and leaves the
whole state unchanged; if the entry is absent, or its recorded time is at
least the window old, it emits the alert and records the current time
under that key. -/
theorem changeAlert_cooldown_gate (pf : String → Option ℚ) (fmtQ : ℚ → String)
    (timeFmt : Int → String) (timeParse : String → Option Int) (env : HistEnv)
    (prices : Snapshot) (cd now : Int) (st : List (String × String))
    (rule : ChangeAlertRule) (cp bp : ℚ)
    (hcp : mapLookup prices (rule.Symbol ++ "USDT") = some cp)
    (hbp : getHistoricalPrice pf env rule.Symbol rule.Period = Except.ok bp)
    (htrig : abs ((cp - bp) / bp * 100) ≥ rule.ChangePercent) :
    (∀ s t, mapLookup st (rule.Symbol ++ "USDT" ++ "_" ++ rule.Period) = some s →
      timeParse s = some t → now - t < cd →
      (checkChangeAlerts pf fmtQ timeFmt timeParse env [rule] prices cd now st).triggered =
        [] ∧
      (checkChangeAlerts pf fmtQ timeFmt timeParse env [rule] prices cd now st).state = st) ∧
    (mapLookup st (rule.Symbol ++ "USDT" ++ "_" ++ rule.Period) = none →
      (checkChangeAlerts pf fmtQ timeFmt timeParse env [rule] prices cd now st).triggered =
        [changeAlertOf fmtQ rule cp bp] ∧
      (checkChangeAlerts pf fmtQ timeFmt timeParse env [rule] prices cd now st).state =
        mapInsert st (rule.Symbol ++ "USDT" ++ "_" ++ rule.Period) (timeFmt now)) ∧
    (∀ s t, mapLookup st (rule.Symbol ++ "USDT" ++ "_" ++ rule.Period) = some s →
      timeParse s = some t → cd ≤ now - t →
      (checkChangeAlerts pf fmtQ timeFmt timeParse env [rule] prices cd now st).triggered =
        [changeAlertOf fmtQ rule cp bp] ∧
      (checkChangeAlerts pf fmtQ timeFmt timeParse env [rule] prices cd now st).state =
        mapInsert st (rule.Symbol ++ "USDT" ++ "_" ++ rule.Period) (timeFmt now)) := by
  refine ⟨?_, ?_, ?_⟩
  · intro s t hs ht hlt
    simp only [checkChangeAlerts, List.foldl, changeStep, hcp, hbp, hs, ht]
    simp [htrig, hlt]
  · intro hnone
    simp only [checkChangeAlerts, List.foldl, changeStep, hcp, hbp, hnone]
    simp [htrig, changeAlertOf]
  · intro s t hs ht hge
    have hnlt : ¬(now - t < cd) := not_lt.mpr hge
    simp only [checkChangeAlerts, List.foldl, changeStep, hcp, hbp, hs, ht]
    simp [htrig, hnlt, changeAlertOf]

/-- Witness for C6: with a 300-second window at `now = 1000`, a trigger
whose key fired at 999 (1 second ago) is suppressed with the state intact,
while one whose key fired at 0 (1000 seconds ago) fires and re-records the
key. -/
theorem changeAlert_cooldown_gate_witness :
    (checkChangeAlerts wParse wFmtQ wTimeFmt wTimeParse fwdEnv [wRule]
      [("BTCUSDT", (110 : ℚ))] 300 1000 [("BTCUSDT_15m", "T999")]).triggered = [] ∧
    (checkChangeAlerts wParse wFmtQ wTimeFmt wTimeParse fwdEnv [wRule]
      [("BTCUSDT", (110 : ℚ))] 300 1000 [("BTCUSDT_15m", "T999")]).state =
      [("BTCUSDT_15m", "T999")] ∧
    (checkChangeAlerts wParse wFmtQ wTimeFmt wTimeParse fwdEnv [wRule]
      [("BTCUSDT", (110 : ℚ))] 300 1000 [("BTCUSDT_15m", "T0")]).triggered = [wAlert110] ∧
    (checkChangeAlerts wParse wFmtQ wTimeFmt wTimeParse fwdEnv [wRule]
      [("BTCUSDT", (110 : ℚ))] 300 1000 [("BTCUSDT_15m", "T0")]).state =
      [("BTCUSDT_15m", "T1000")] := by
  have htrig : abs (((110 : ℚ) - 99) / 99 * 100) ≥ wRule.ChangePercent := by
    norm_num [abs, wRule]
  have h1 := (changeAlert_cooldown_gate wParse wFmtQ wTimeFmt wTimeParse fwdEnv
    [("BTCUSDT", (110 : ℚ))] 300 1000 [("BTCUSDT_15m", "T999")] wRule 110 99
    (by decide) (by decide) htrig).1 ("T999") 999 (by decide) (by decide) (by decide)
  have h2 := (changeAlert_cooldown_gate wParse wFmtQ wTimeFmt wTimeParse fwdEnv
    [("BTCUSDT", (110 : ℚ))] 300 1000 [("BTCUSDT_15m", "T0")] wRule 110 99
    (by decide) (by decide) htrig).2.2 ("T0") 0 (by decide) (by decide) (by decide)
  refine ⟨h1.1, h1.2, h2.1.trans ?_, h2.2.trans (by decide)⟩
  norm_num [changeAlertOf, wAlert110, wFmtQ, periodLabel, wRule]
  decide

/-- **C7.** The change-alert cooldown map after a tick is exactly the one
`checkChangeAlerts` recorded during rule evaluation — whatever the
outcome of the subsequent change-batch `sendAlerts` (quantified `b`), so
a send failure neither prevents nor rolls back any cooldown entry written
in that tick. -/
theorem change_cooldown_written_before_send (pf : String → Option ℚ) (fmtQ : ℚ → String)
    (timeFmt : Int → String) (timeParse : String → Option Int) (cfg : MonitorConfig)
    (fenv : FetchEnv) (henv : HistEnv) (spOk : Bool) (cd now lat : Int)
    (st : List (String × String)) (prices : Snapshot)
    (hfetch : (getAllPrices pf fenv).1 = some prices) :
    ∀ b : Bool,
      (monitorTick pf fmtQ timeFmt timeParse cfg fenv henv spOk b cd now lat st).changeState =
        (checkChangeAlerts pf fmtQ timeFmt timeParse henv cfg.changeAlertRules prices
          cd now st).state := by
  intro b
  simp only [monitorTick, hfetch]

/-- Witness for C7: the sample tick whose change-batch send fails
(`sendChangeOk = false`) still ends with exactly the state
`checkChangeAlerts` recorded. -/
theorem change_cooldown_written_before_send_witness :
    (monitorTick wParse wFmtQ wTimeFmt wTimeParse wCfgChange wFetchEnv fwdEnv
      true false 300 1000 0 []).changeState =
      (checkChangeAlerts wParse wFmtQ wTimeFmt wTimeParse fwdEnv [wRule]
        [("BTCUSDT", (65000 : ℚ))] 300 1000 []).state := by
  have h := change_cooldown_written_before_send wParse wFmtQ wTimeFmt wTimeParse
    wCfgChange wFetchEnv fwdEnv true 300 1000 0 [] [("BTCUSDT", (65000 : ℚ))]
    (by decide) false
  simpa only [wCfgChange] using h

/-- **C8.** With a non-empty triggered price-alert list, the whole batch
is sent exactly when the time since the last successful price-alert send
strictly exceeds the cooldown window (otherwise it is suppressed
entirely), and the shared timestamp becomes `now` only when the send
succeeds — on failure or suppression it is unchanged. -/
theorem priceAlert_batch_gate (pf : String → Option ℚ) (fmtQ : ℚ → String)
    (timeFmt : Int → String) (timeParse : String → Option Int) (cfg : MonitorConfig)
    (fenv : FetchEnv) (henv : HistEnv) (spOk scOk : Bool) (cd now lat : Int)
    (st : List (String × String)) (prices : Snapshot)
    (hfetch : (getAllPrices pf fenv).1 = some prices)
    (hpa : checkPriceAlerts fmtQ cfg.priceAlertRules prices ≠ []) :
    ((monitorTick pf fmtQ timeFmt timeParse cfg fenv henv spOk scOk cd now lat st).priceSent =
      decide (now - lat > cd)) ∧
    (now - lat > cd → spOk = true →
      (monitorTick pf fmtQ timeFmt timeParse cfg fenv henv spOk scOk cd now lat st).lastAlertTime =
        now) ∧
    (now - lat > cd → spOk = false →
      (monitorTick pf fmtQ timeFmt timeParse cfg fenv henv spOk scOk cd now lat st).lastAlertTime =
        lat) ∧
    (¬(now - lat > cd) →
      (monitorTick pf fmtQ timeFmt timeParse cfg fenv henv spOk scOk cd now lat st).priceSent =
        false ∧
      (monitorTick pf fmtQ timeFmt timeParse cfg fenv henv spOk scOk cd now lat st).lastAlertTime =
        lat) := by
  have hne : (checkPriceAlerts fmtQ cfg.priceAlertRules prices).isEmpty = false := by
    cases hl : checkPriceAlerts fmtQ cfg.priceAlertRules prices with
    | nil => exact absurd hl hpa
    | cons a l => rfl
  refine ⟨?_, ?_, ?_, ?_⟩
  · simp [monitorTick, hfetch, hne]
  · intro hgt hsp
    simp [monitorTick, hfetch, hne, hgt, hsp]
  · intro hgt hsp
    simp [monitorTick, hfetch, hne, hgt, hsp]
  · intro hngt
    simp [monitorTick, hfetch, hne, hngt]

/-- Witness for C8: snapshot price 65000 triggers the below-70000 rule;
with `lat = 0`, `now = 1000`, window 300 the gate passes, a successful
send records 1000, a failing send leaves the timestamp at 0. -/
theorem priceAlert_batch_gate_witness :
    (monitorTick wParse wFmtQ wTimeFmt wTimeParse wCfgPrice wFetchEnv emptyHistEnv
      true true 300 1000 0 []).priceSent = true ∧
    (monitorTick wParse wFmtQ wTimeFmt wTimeParse wCfgPrice wFetchEnv emptyHistEnv
      true true 300 1000 0 []).lastAlertTime = 1000 ∧
    (monitorTick wParse wFmtQ wTimeFmt wTimeParse wCfgPrice wFetchEnv emptyHistEnv
      false true 300 1000 0 []).lastAlertTime = 0 := by
  have h1 := priceAlert_batch_gate wParse wFmtQ wTimeFmt wTimeParse wCfgPrice wFetchEnv
    emptyHistEnv true true 300 1000 0 [] [("BTCUSDT", (65000 : ℚ))] (by decide) (by decide)
  have h2 := priceAlert_batch_gate wParse wFmtQ wTimeFmt wTimeParse wCfgPrice wFetchEnv
    emptyHistEnv false true 300 1000 0 [] [("BTCUSDT", (65000 : ℚ))] (by decide) (by decide)
  exact ⟨h1.1.trans (by decide), h1.2.1 (by decide) rfl, h2.2.2.1 (by decide) rfl⟩

theorem changeStep_state_cases (pf : String → Option ℚ) (fmtQ : ℚ → String)
    (timeFmt : Int → String) (timeParse : String → Option Int) (env : HistEnv)
    (prices : Snapshot) (cd now : Int) (acc : ChangeAcc) (rule : ChangeAlertRule) :
    ((changeStep pf fmtQ timeFmt timeParse env prices cd now acc rule).state = acc.state ∧
      (changeStep pf fmtQ timeFmt timeParse env prices cd now acc rule).fired = acc.fired) ∨
    (∃ key, (changeStep pf fmtQ timeFmt timeParse env prices cd now acc rule).state =
        mapInsert acc.state key (timeFmt now) ∧
      (changeStep pf fmtQ timeFmt timeParse env prices cd now acc rule).fired =
        acc.fired ++ [key]) := by
  rcases hcp : mapLookup prices (rule.Symbol ++ "USDT") with _ | cp
  · left
    constructor <;> simp [changeStep, hcp]
  · rcases hhist : getHistoricalPrice pf env rule.Symbol rule.Period with e | bp
    · left
      constructor <;> simp [changeStep, hcp, hhist]
    · simp only [changeStep, hcp, hhist]
      split
      · split
        · left
          exact ⟨rfl, rfl⟩
        · right
          exact ⟨rule.Symbol ++ "USDT" ++ "_" ++ rule.Period, rfl, rfl⟩
      · left
        exact ⟨rfl, rfl⟩

theorem changeStep_fired_keep (pf : String → Option ℚ) (fmtQ : ℚ → String)
    (timeFmt : Int → String) (timeParse : String → Option Int) (env : HistEnv)
    (prices : Snapshot) (cd now : Int) (acc : ChangeAcc) (rule : ChangeAlertRule) :
    ∀ x ∈ acc.fired, x ∈ (changeStep pf fmtQ timeFmt timeParse env prices cd now acc rule).fired := by
  intro x hx
  rcases changeStep_state_cases pf fmtQ timeFmt timeParse env prices cd now acc rule with
    ⟨_, hf⟩ | ⟨key, _, hf⟩ <;> rw [hf]
  · exact hx
  · exact List.mem_append_left _ hx

theorem changeFold_fired_mono (pf : String → Option ℚ) (fmtQ : ℚ → String)
    (timeFmt : Int → String) (timeParse : String → Option Int) (env : HistEnv)
    (prices : Snapshot) (cd now : Int) (rules : List ChangeAlertRule) :
    ∀ (acc : ChangeAcc) (x : String), x ∈ acc.fired →
      x ∈ (List.foldl (changeStep pf fmtQ timeFmt timeParse env prices cd now)
        acc rules).fired := by
  induction rules with
  | nil => intro acc x hx; simpa using hx
  | cons r rs ih =>
      intro acc x hx
      simp only [List.foldl_cons]
      exact ih _ x (changeStep_fired_keep pf fmtQ timeFmt timeParse env prices cd now acc r x hx)

theorem changeFold_frame (pf : String → Option ℚ) (fmtQ : ℚ → String)
    (timeFmt : Int → String) (timeParse : String → Option Int) (env : HistEnv)
    (prices : Snapshot) (cd now : Int) (rules : List ChangeAlertRule) :
    ∀ (acc : ChangeAcc) (k : String),
      k ∉ (List.foldl (changeStep pf fmtQ timeFmt timeParse env prices cd now) acc rules).fired →
      mapLookup (List.foldl (changeStep pf fmtQ timeFmt timeParse env prices cd now)
        acc rules).state k = mapLookup acc.state k := by
  induction rules with
  | nil => intro acc k _; rfl
  | cons r rs ih =>
      intro acc k hk
      simp only [List.foldl_cons] at hk ⊢
      have hk1 : k ∉ (changeStep pf fmtQ timeFmt timeParse env prices cd now acc r).fired :=
        fun hx => hk (changeFold_fired_mono pf fmtQ timeFmt timeParse env prices cd now rs _ k hx)
      have h2 := ih (changeStep pf fmtQ timeFmt timeParse env prices cd now acc r) k hk
      rcases changeStep_state_cases pf fmtQ timeFmt timeParse env prices cd now acc r with
        ⟨hs, _⟩ | ⟨key, hs, hf⟩
      · rw [h2, hs]
      · have hkey : k ≠ key := by
          intro hkk
          subst hkk
          exact hk1 (by rw [hf]; exact List.mem_append_right _ (by simp))
        rw [h2, hs, mapLookup_insert_ne _ _ _ _ hkey]

/-- **C10.** `checkChangeAlerts` changes the cooldown map only at the keys
it fired in that call — every other key keeps exactly its previous value —
and the triggered price-alert list of a tick is the same for any per-key
cooldown map and any shared price-alert timestamp, so `checkPriceAlerts`
reads neither. -/
theorem cooldown_state_frame (pf : String → Option ℚ) (fmtQ : ℚ → String)
    (timeFmt : Int → String) (timeParse : String → Option Int) (env : HistEnv)
    (rules : List ChangeAlertRule) (prices : Snapshot) (cd now : Int)
    (st : List (String × String)) :
    (∀ k, k ∉ (checkChangeAlerts pf fmtQ timeFmt timeParse env rules prices cd now st).fired →
      mapLookup (checkChangeAlerts pf fmtQ timeFmt timeParse env rules prices cd now st).state
        k = mapLookup st k) ∧
    (∀ (cfg : MonitorConfig) (fenv : FetchEnv) (henv : HistEnv) (spOk scOk : Bool)
      (lat lat' : Int) (st1 st2 : List (String × String)),
      (monitorTick pf fmtQ timeFmt timeParse cfg fenv henv spOk scOk cd now lat st1).priceTriggered =
        (monitorTick pf fmtQ timeFmt timeParse cfg fenv henv spOk scOk cd now lat' st2).priceTriggered) := by
  constructor
  · intro k hk
    exact changeFold_frame pf fmtQ timeFmt timeParse env prices cd now rules
      { triggered := [], state := st, divisors := [], fired := [] } k hk
  · intro cfg fenv henv spOk scOk lat lat' st1 st2
    cases hf : (getAllPrices pf fenv).1 with
    | none => simp [monitorTick, hf]
    | some prices2 => simp [monitorTick, hf]

/-- Witness for C10: in the sample run that fires only `BTCUSDT_15m`, the
unrelated key `ETHUSDT_daily` keeps its old value, and the tick's
triggered price list is unchanged under different cooldown states. -/
theorem cooldown_state_frame_witness :
    mapLookup (checkChangeAlerts wParse wFmtQ wTimeFmt wTimeParse fwdEnv [wRule]
      [("BTCUSDT", (110 : ℚ))] 300 1000 [("ETHUSDT_daily", "T0")]).state ("ETHUSDT_daily") =
      mapLookup [("ETHUSDT_daily", "T0")] ("ETHUSDT_daily") ∧
    (monitorTick wParse wFmtQ wTimeFmt wTimeParse wCfgPrice wFetchEnv emptyHistEnv
      true true 300 1000 0 []).priceTriggered =
      (monitorTick wParse wFmtQ wTimeFmt wTimeParse wCfgPrice wFetchEnv emptyHistEnv
        true true 300 1000 5 [("X", "Y")]).priceTriggered := by
  have h := cooldown_state_frame wParse wFmtQ wTimeFmt wTimeParse fwdEnv [wRule]
    [("BTCUSDT", (110 : ℚ))] 300 1000 [("ETHUSDT_daily", "T0")]
  refine ⟨h.1 ("ETHUSDT_daily") ?_, h.2 wCfgPrice wFetchEnv emptyHistEnv true true 0 5
    [] [("X", "Y")]⟩
  rw [wChangeEval]
  decide

end Notify
